import Mathlib

/-!
Shallow embedding of the `threadpool_manager` package
(`src/threadpool_manager/managed_task.py`, `managed_pool.py`, `manager.py`,
and the pagination logic of `app.py`).

Modelling conventions:
* Python `dict`s (insertion ordered, unique keys) are association lists
  `List (Nat × α)`; `aset` models `d[k] = v` (replace in place, else append),
  `aerase` models `del d[k]`, and deletion of a computed id list is a filter.
* Opaque `uuid4` draws are modelled as `Nat` arguments supplied by the caller.
* Wall-clock timestamps (`datetime.now()`) are `Nat` arguments.
* A `concurrent.futures` executor is represented by a generation number
  (`executorGen`) plus the ordered list of task ids submitted to it
  (`enqueued`); `ManagedTask.futureGen` records which executor generation the
  task's current `Future` belongs to (reassigned by `set_future` during
  resize migration).
* Exceptions raised by the runtime inside `resize` (executor allocation,
  `executor.submit`, `executor.shutdown`) are environment nondeterminism and
  are injected through a `ResizeFault` oracle; `noFault` is normal execution.
* Python exceptions raised by repository code are `Except` errors.
-/

namespace ThreadpoolMgr

/-- Task lifecycle states, from `enums.TaskStatus`. -/
inductive TaskStatus
  | pending
  | running
  | completed
  | failed
  | cancelled
deriving DecidableEq, Repr

/-- Pool lifecycle states, from `enums.PoolStatus`. -/
inductive PoolStatus
  | running
  | shutdown
  | stopped
  | terminated
deriving DecidableEq, Repr

/-- `ManagedTask.is_done`: the three terminal states. -/
def TaskStatus.isDone : TaskStatus → Bool
  | .completed => true
  | .failed => true
  | .cancelled => true
  | _ => false

/-- Association-list lookup, modelling Python `d.get(k)`. -/
def alookup {α : Type} : List (Nat × α) → Nat → Option α
  | [], _ => none
  | (k, v) :: rest, key => if k = key then some v else alookup rest key

/-- Membership test on keys, modelling Python `k in d`. -/
def acontains {α : Type} (l : List (Nat × α)) (k : Nat) : Bool :=
  (alookup l k).isSome

/-- Association-list update, modelling Python `d[k] = v`: replace the entry in
place if the key exists, otherwise append. -/
def aset {α : Type} : List (Nat × α) → Nat → α → List (Nat × α)
  | [], key, v => [(key, v)]
  | (k, w) :: rest, key, v =>
    if k = key then (key, v) :: rest else (k, w) :: aset rest key v

/-- Association-list deletion, modelling Python `del d[k]` (keys are unique in
a dict, so removing the first occurrence is exact). -/
def aerase {α : Type} : List (Nat × α) → Nat → List (Nat × α)
  | [], _ => []
  | (k, w) :: rest, key =>
    if k = key then rest else (k, w) :: aerase rest key

/-- The state of one `ManagedTask` (`managed_task.py`).  The wrapped work
function, its arguments and the result value are opaque to every property in
scope, so the result is an abstract `Option Nat`. -/
structure ManagedTask where
  task_id : Nat
  name : String
  pool_id : Nat
  /-- Executor generation of the task's current `Future` (set by
  `set_future`). -/
  futureGen : Nat
  submit_time : Nat
  start_time : Option Nat := none
  end_time : Option Nat := none
  status : TaskStatus := .pending
  result : Option Nat := none
  error : Option String := none
deriving DecidableEq, Repr

/-- `ManagedTask.is_done()`. -/
def ManagedTask.isDone (t : ManagedTask) : Bool :=
  t.status.isDone

/-- `ManagedTask.mark_running`: only a `PENDING` task moves to `RUNNING`, and
`start_time` is stamped there. -/
def ManagedTask.markRunning (t : ManagedTask) (now : Nat) : ManagedTask :=
  if t.status = .pending then
    { t with status := .running, start_time := some now }
  else t

/-- Outcome carried by a completed `Future`, as inspected by
`_on_task_complete`. -/
inductive FutureOutcome
  | wasCancelled
  | raised (msg : String)
  | returned (v : Nat)
deriving DecidableEq, Repr

/-- `ManagedTask._on_task_complete`: the done-callback of the task's future.
It stamps `end_time` and overwrites `status` unconditionally from the future's
outcome. -/
def ManagedTask.onTaskComplete (t : ManagedTask) (o : FutureOutcome) (now : Nat) :
    ManagedTask :=
  match o with
  | .wasCancelled => { t with end_time := some now, status := .cancelled }
  | .raised m => { t with end_time := some now, status := .failed, error := some m }
  | .returned v => { t with end_time := some now, status := .completed, result := some v }

/-- `ManagedTask.cancel`: for a `PENDING` or `RUNNING` task it asks the
underlying future to cancel; `futureCancelOk` is the environment's answer to
`self.future.cancel()` (for a future that has not started executing it is
`true`).  On success the task moves to `CANCELLED` with `end_time` stamped.
Terminal tasks fall through and return `false` with no mutation. -/
def ManagedTask.cancelTask (t : ManagedTask) (futureCancelOk : Bool) (now : Nat) :
    ManagedTask × Bool :=
  if t.status = .pending then
    if futureCancelOk then
      ({ t with status := .cancelled, end_time := some now }, true)
    else (t, false)
  else if t.status = .running then
    if futureCancelOk then
      ({ t with status := .cancelled, end_time := some now }, true)
    else (t, false)
  else (t, false)

/-- Default task name `f"task-{task_id[:8]}"` built from the uuid draw. -/
def defaultTaskName (fid : Nat) : String :=
  "task-" ++ toString fid

/-- Default pool name `f"pool-{pool_id[:8]}"` built from the uuid draw. -/
def defaultPoolName (fid : Nat) : String :=
  "pool-" ++ toString fid

/-- `if not task_name: task_name = f"task-{task_id[:8]}"`: both `None` and the
empty string are falsy. -/
def resolveTaskName (task_name : Option String) (fid : Nat) : String :=
  match task_name with
  | none => defaultTaskName fid
  | some s => if s = "" then defaultTaskName fid else s

/-- `if not name: name = f"pool-{pool_id[:8]}"`: both `None` and the empty
string are falsy. -/
def resolvePoolName (name : Option String) (fid : Nat) : String :=
  match name with
  | none => defaultPoolName fid
  | some s => if s = "" then defaultPoolName fid else s

/-- Errors raised by `ManagedThreadPool` methods. -/
inductive PoolErr
  | invalidPoolState
deriving DecidableEq, Repr

/-- The state of one `ManagedThreadPool` (`managed_pool.py`).  The
`ThreadPoolExecutor` is abstracted to its generation number plus the ordered
list of task ids submitted to it. -/
structure ManagedThreadPool where
  pool_id : Nat
  name : String
  /-- Python int; `__init__` applies `max_workers or 5`, nothing checks
  positivity. -/
  max_workers : Int
  executorGen : Nat
  enqueued : List Nat
  status : PoolStatus
  tasks : List (Nat × ManagedTask)
deriving DecidableEq, Repr

/-- Python builtin `ValueError` as raised by `ThreadPoolExecutor.__init__`,
which deterministically rejects `max_workers <= 0`. -/
inductive PyValueErr
  | maxWorkersNotPositive (requested : Int)
deriving DecidableEq, Repr

/-- `ManagedThreadPool.__init__`: `self.max_workers = max_workers or 5` (both
`None` and `0` are falsy in Python, so both fall back to 5; every other
value, negative ones included, passes through with no check by this class),
then `ThreadPoolExecutor(max_workers=self.max_workers)` — whose constructor
raises `ValueError` for a non-positive worker count, so construction fails
for any negative request.  On success: a fresh executor (generation `gen`),
status `RUNNING`, empty task dict. -/
def mkManagedThreadPool (pool_id : Nat) (name : String) (max_workers : Option Int)
    (gen : Nat) : Except PyValueErr ManagedThreadPool :=
  let mw : Int :=
    match max_workers with
    | none => 5
    | some v => if v = 0 then 5 else v
  if mw ≤ 0 then
    .error (.maxWorkersNotPositive mw)
  else
    .ok
      { pool_id := pool_id
        name := name
        max_workers := mw
        executorGen := gen
        enqueued := []
        status := .running
        tasks := [] }

/-- `ManagedThreadPool.submit`: raise `InvalidPoolStateError` unless status is
`RUNNING`; otherwise create a `PENDING` task under a fresh uuid (`fid`), with
the default name when `task_name` is `None` or empty, store it in the task
dict, submit its `start` to the executor and attach the future.  The source
returns the pair `(task_id, future)`; the future handle is implicit here. -/
def ManagedThreadPool.submit (p : ManagedThreadPool) (task_name : Option String)
    (fid : Nat) (now : Nat) : Except PoolErr (ManagedThreadPool × Nat) :=
  if p.status ≠ .running then
    .error .invalidPoolState
  else
    let t : ManagedTask :=
      { task_id := fid
        name := resolveTaskName task_name fid
        pool_id := p.pool_id
        futureGen := p.executorGen
        submit_time := now }
    .ok ({ p with tasks := aset p.tasks fid t, enqueued := p.enqueued ++ [fid] }, fid)

/-- `ManagedThreadPool.cancel_task`: look the task up (`get_task`); absent ids
return `false`.  Otherwise delegate to `ManagedTask.cancel`, which mutates the
shared task object in place; a successful `future.cancel()` also removes the
work item from the executor queue. -/
def ManagedThreadPool.cancelInPool (p : ManagedThreadPool) (task_id : Nat)
    (futureCancelOk : Bool) (now : Nat) : ManagedThreadPool × Bool :=
  match alookup p.tasks task_id with
  | none => (p, false)
  | some t =>
    let r := t.cancelTask futureCancelOk now
    ({ p with
        tasks := aset p.tasks task_id r.1
        enqueued := if r.2 then p.enqueued.erase task_id else p.enqueued }, r.2)

/-- `ManagedThreadPool.shutdown`: from `RUNNING`, end in `TERMINATED` when
waiting and `STOPPED` otherwise; no-op from any other status.  Draining of
queued work during `executor.shutdown(wait=True)` is execution-time behaviour
outside this state model. -/
def ManagedThreadPool.shutdownPool (p : ManagedThreadPool) (wait : Bool) :
    ManagedThreadPool :=
  if p.status = .running then
    { p with status := if wait then .terminated else .stopped }
  else p

/-- `ManagedThreadPool.shutdown_now`: from `RUNNING`, move to `STOPPED` and
return the task objects that were `PENDING` or `RUNNING`; otherwise return the
empty list.  The executor is shut down without waiting. -/
def ManagedThreadPool.shutdownNow (p : ManagedThreadPool) :
    ManagedThreadPool × List ManagedTask :=
  if p.status = .running then
    ({ p with status := .stopped },
      (p.tasks.filter fun kv =>
        kv.2.status == TaskStatus.pending || kv.2.status == TaskStatus.running).map
        Prod.snd)
  else (p, [])

/-- `ManagedThreadPool.cleanup_completed_tasks`: drop every terminal task from
the task dict and report how many were dropped. -/
def ManagedThreadPool.cleanupCompleted (p : ManagedThreadPool) :
    ManagedThreadPool × Nat :=
  (({ p with tasks := p.tasks.filter fun kv => !kv.2.isDone }),
    (p.tasks.filter fun kv => kv.2.isDone).length)

/-- Fault oracle for the runtime failures that `resize` can encounter: the
`ThreadPoolExecutor` allocation for the new pool, each per-task
`executor.submit` during migration (caught by the inner `try`), and the
`shutdown` of the old executor (caught by the outer `try`). -/
structure ResizeFault where
  newPoolFails : Bool
  submitFails : Nat → Bool
  oldShutdownFails : Bool

/-- Normal execution: no runtime failure during `resize`. -/
def noFault : ResizeFault :=
  { newPoolFails := false, submitFails := fun _ => false, oldShutdownFails := false }

/-- The five message strings `resize` can produce, abstracted to their
branch. -/
inductive ResizeMsg
  | notRunningMsg (st : PoolStatus)
  | invalidParamMsg (requested : Int)
  | noChangeMsg
  | resizedMsg
  | migrationFailedMsg
deriving DecidableEq, Repr

/-- The dict returned by `ManagedThreadPool.resize`; fields absent on a branch
keep their defaults, matching keys absent from the Python dict. -/
structure ResizeResult where
  success : Bool
  old_pool_id : Option Nat := none
  new_pool_id : Option Nat := none
  migrated_tasks : Nat := 0
  completed_tasks : Nat := 0
  running_tasks : Nat := 0
  message : ResizeMsg
deriving DecidableEq, Repr

/-- The pending-task migration loop of `resize`: walk the `PENDING` snapshot in
order; a failed `executor.submit` (inner `except`) marks nothing here — the
caller handles the task object — while a successful one inserts the task, with
its future reattached to the new executor generation, into the new pool's dict
and queue and counts it. -/
def migratePending (fault : ResizeFault) (newGen : Nat) :
    List (Nat × ManagedTask) → List (Nat × ManagedTask) → List Nat → Nat →
    List (Nat × ManagedTask) × List Nat × Nat
  | [], acc, q, c => (acc, q, c)
  | (k, t) :: rest, acc, q, c =>
    if fault.submitFails k then
      migratePending fault newGen rest acc q c
    else
      migratePending fault newGen rest (aset acc k { t with futureGen := newGen })
        (q ++ [k]) (c + 1)

/-- The running-task loop of `resize`: insert each `RUNNING` snapshot entry,
unchanged, into the new pool's dict. -/
def insertAll : List (Nat × ManagedTask) → List (Nat × ManagedTask) →
    List (Nat × ManagedTask)
  | [], acc => acc
  | (k, t) :: rest, acc => insertAll rest (aset acc k t)

/-- The in-place mutation the migration loop performs on the shared task
objects still referenced by the old dict: a `PENDING` task whose re-submit
failed is marked `FAILED` (no `end_time`), a re-submitted one has its future
reattached to the new executor generation. -/
def mutateByMigration (fault : ResizeFault) (newGen : Nat)
    (kv : Nat × ManagedTask) : Nat × ManagedTask :=
  if kv.2.status == TaskStatus.pending then
    if fault.submitFails kv.1 then
      (kv.1, { kv.2 with status := .failed, error := some "submit failed" })
    else
      (kv.1, { kv.2 with futureGen := newGen })
  else kv

/-- `ManagedThreadPool.resize` (`managed_pool.py` lines 224-337).  Guard
branches first; then, under the `try`, snapshot and partition the task dict,
build a replacement pool one executor generation up, migrate the `PENDING`
tasks, carry the `RUNNING` tasks over, shut the old executor down and swap the
executor, capacity and task dict in, ending back in `RUNNING`.  A fault at new
pool allocation aborts before any mutation (the executor constructor's
deterministic `ValueError` cannot fire here, because the guard already
ensured the new capacity is at least 1; `newPoolFails` models resource
failures); a fault at the old executor shutdown aborts after the task objects
were already mutated in place, so the returned pool keeps the old dict with
those mutations visible.  `shutdown(wait=False)` on the old executor discards
nothing: work items already queued there still run, so a migrated `PENDING`
task is executed by both worker sets and its superseded future keeps its done
callback. -/
def ManagedThreadPool.resize (p : ManagedThreadPool) (new_max_workers : Int)
    (fault : ResizeFault) : ManagedThreadPool × ResizeResult :=
  if p.status ≠ .running then
    (p, { success := false, message := .notRunningMsg p.status })
  else if new_max_workers < 1 then
    (p, { success := false, message := .invalidParamMsg new_max_workers })
  else if new_max_workers = p.max_workers then
    (p, { success := true, message := .noChangeMsg })
  else
    let pending_tasks := p.tasks.filter fun kv => kv.2.status == TaskStatus.pending
    let running_tasks := p.tasks.filter fun kv => kv.2.status == TaskStatus.running
    let completed_tasks := p.tasks.filter fun kv => kv.2.isDone
    if fault.newPoolFails then
      (p, { success := false, message := .migrationFailedMsg })
    else
      let newGen := p.executorGen + 1
      let mig := migratePending fault newGen pending_tasks [] [] 0
      let newTasks := insertAll running_tasks mig.1
      if fault.oldShutdownFails then
        ({ p with tasks := p.tasks.map (mutateByMigration fault newGen) },
          { success := false, message := .migrationFailedMsg })
      else
        ({ p with
            max_workers := new_max_workers
            executorGen := newGen
            enqueued := mig.2.1
            tasks := newTasks
            status := .running },
          { success := true
            old_pool_id := some p.pool_id
            new_pool_id := some p.pool_id
            migrated_tasks := mig.2.2
            completed_tasks := completed_tasks.length
            running_tasks := running_tasks.length
            message := .resizedMsg })

/-- The info dict produced by `ManagedThreadPool.get_info`. -/
structure PoolInfo where
  pool_id : Nat
  name : String
  status : PoolStatus
  max_workers : Int
  total_tasks : Nat
  active_tasks : Nat
  pending_tasks : Nat
  running_tasks : Nat
  completed_tasks : Nat
  cancelled_tasks : Nat
  failed_tasks : Nat
deriving DecidableEq, Repr

/-- `ManagedThreadPool.get_info`: a snapshot of status, capacity and per-state
task counts. -/
def ManagedThreadPool.getInfo (p : ManagedThreadPool) : PoolInfo :=
  { pool_id := p.pool_id
    name := p.name
    status := p.status
    max_workers := p.max_workers
    total_tasks := p.tasks.length
    active_tasks := (p.tasks.filter fun kv => !kv.2.isDone).length
    pending_tasks := (p.tasks.filter fun kv => kv.2.status == TaskStatus.pending).length
    running_tasks := (p.tasks.filter fun kv => kv.2.status == TaskStatus.running).length
    completed_tasks := (p.tasks.filter fun kv => kv.2.isDone).length
    cancelled_tasks := (p.tasks.filter fun kv => kv.2.status == TaskStatus.cancelled).length
    failed_tasks := (p.tasks.filter fun kv => kv.2.status == TaskStatus.failed).length }

/-- Errors raised by `ThreadPoolManager` methods. -/
inductive MgrErr
  | poolNotFound
  | taskNotFound
  | poolAlreadyExists
  | invalidPoolState
  /-- A Python builtin `ValueError` propagated out of
  `ThreadPoolExecutor.__init__`; not one of the package's exception
  classes. -/
  | valueError (e : PyValueErr)
deriving DecidableEq, Repr

/-- The state of the `ThreadPoolManager` (`manager.py`): the pool directory and
the denormalized global task index.  In Python both maps alias the same
mutable objects; here every operation mirrors each mutation into both maps. -/
structure ThreadPoolManager where
  pools : List (Nat × ManagedThreadPool)
  tasks : List (Nat × ManagedTask)
deriving DecidableEq, Repr

/-- `ThreadPoolManager.create_pool`: resolve the name (uuid-based default when
`None` or empty), raise `PoolAlreadyExistsError` on a live-name collision,
then construct the `ManagedThreadPool` — propagating the `ValueError` its
executor constructor raises for a negative capacity, in which case nothing is
registered — and insert it under the uuid draw `fid`. -/
def ThreadPoolManager.createPool (m : ThreadPoolManager) (name : Option String)
    (max_workers : Option Int) (fid : Nat) :
    Except MgrErr (ThreadPoolManager × Nat) :=
  if m.pools.any fun kv => kv.2.name == resolvePoolName name fid then
    .error .poolAlreadyExists
  else
    match mkManagedThreadPool fid (resolvePoolName name fid) max_workers 0 with
    | .error e => .error (.valueError e)
    | .ok pool => .ok ({ m with pools := aset m.pools fid pool }, fid)

/-- `ThreadPoolManager.submit_task`: look the pool up (raising
`PoolNotFoundError`), delegate to `ManagedThreadPool.submit` (which raises
`InvalidPoolStateError` on a non-running pool), then register the task object
that `pool.get_task` returns in the global index.  The task was inserted by
`submit` one line earlier, so the lookup always succeeds; the dead branch
mirrors an unreachable `None`. -/
def ThreadPoolManager.submitTask (m : ThreadPoolManager) (pool_id : Nat)
    (task_name : Option String) (fid : Nat) (now : Nat) :
    Except MgrErr (ThreadPoolManager × Nat) :=
  match alookup m.pools pool_id with
  | none => .error .poolNotFound
  | some pool =>
    match pool.submit task_name fid now with
    | .error _ => .error .invalidPoolState
    | .ok pr =>
      match alookup pr.1.tasks pr.2 with
      | none => .error .taskNotFound
      | some task =>
        .ok ({ m with
            pools := aset m.pools pool_id pr.1
            tasks := aset m.tasks pr.2 task }, pr.2)

/-- `ThreadPoolManager.cancel_task`: an unknown id returns `false`; otherwise
`get_pool` on the task's stored pool id (raising `PoolNotFoundError` if that
pool is gone), the pool-level cancel mutates the shared task object — mirrored
into the global index — and a successful cancel of a now-terminal task is
pruned from the index. -/
def ThreadPoolManager.cancelTaskMgr (m : ThreadPoolManager) (task_id : Nat)
    (futureCancelOk : Bool) (now : Nat) :
    Except MgrErr (ThreadPoolManager × Bool) :=
  match alookup m.tasks task_id with
  | none => .ok (m, false)
  | some task =>
    match alookup m.pools task.pool_id with
    | none => .error .poolNotFound
    | some pool =>
      let pr := pool.cancelInPool task_id futureCancelOk now
      let mutated := (alookup pr.1.tasks task_id).getD task
      let m1 : ThreadPoolManager :=
        { m with
            pools := aset m.pools task.pool_id pr.1
            tasks := aset m.tasks task_id mutated }
      if pr.2 && mutated.isDone then
        .ok ({ m1 with tasks := aerase m1.tasks task_id }, pr.2)
      else
        .ok (m1, pr.2)

/-- `ThreadPoolManager.close_pool`: look the pool up (raising
`PoolNotFoundError`), shut it down gracefully, delete from the global index
every task of this pool that `is_done()`, then delete the pool entry and
return `true`.  Non-terminal tasks of the pool stay in the index. -/
def ThreadPoolManager.closePool (m : ThreadPoolManager) (pool_id : Nat)
    (wait : Bool) : Except MgrErr (ThreadPoolManager × Bool) :=
  match alookup m.pools pool_id with
  | none => .error .poolNotFound
  | some pool =>
    let _ := pool.shutdownPool wait
    .ok ({ m with
        pools := aerase m.pools pool_id
        tasks := m.tasks.filter fun kv =>
          !(kv.2.pool_id == pool_id && kv.2.isDone) }, true)

/-- `ThreadPoolManager.force_close_pool`: look the pool up (raising
`PoolNotFoundError`), collect from the global index the ids of this pool's
tasks that are not done, shut the pool down immediately, delete exactly those
ids from the index, delete the pool entry and return the collected ids.
Terminal tasks of the pool stay in the index. -/
def ThreadPoolManager.forceClosePool (m : ThreadPoolManager) (pool_id : Nat) :
    Except MgrErr (ThreadPoolManager × List Nat) :=
  match alookup m.pools pool_id with
  | none => .error .poolNotFound
  | some pool =>
    let active := (m.tasks.filter fun kv =>
      kv.2.pool_id == pool_id && !kv.2.isDone).map Prod.fst
    let _ := pool.shutdownNow
    .ok ({ m with
        pools := aerase m.pools pool_id
        tasks := m.tasks.filter fun kv => !(active.contains kv.1) }, active)

/-- `ThreadPoolManager.cleanup_completed_tasks`: drop every `is_done()` task
from the global index and from each pool's own dict. -/
def ThreadPoolManager.cleanupCompletedMgr (m : ThreadPoolManager) :
    ThreadPoolManager :=
  { m with
      tasks := m.tasks.filter fun kv => !kv.2.isDone
      pools := m.pools.map fun kv => (kv.1, (kv.2.cleanupCompleted).1) }

/-- `ThreadPoolManager.clear_stopped_pools`: drop every pool whose status is
`STOPPED` or `TERMINATED`. -/
def ThreadPoolManager.clearStoppedPools (m : ThreadPoolManager) :
    ThreadPoolManager :=
  { m with
      pools := m.pools.filter fun kv =>
        !(kv.2.status == PoolStatus.stopped || kv.2.status == PoolStatus.terminated) }

/-- One wake of the cleanup thread (`_start_cleanup_thread`):
`cleanup_completed_tasks` then `clear_stopped_pools`. -/
def ThreadPoolManager.cleanupSweep (m : ThreadPoolManager) : ThreadPoolManager :=
  m.cleanupCompletedMgr.clearStoppedPools

/-- `ThreadPoolManager.list_pools`: the info snapshots of every registered
pool. -/
def ThreadPoolManager.listPools (m : ThreadPoolManager) : List PoolInfo :=
  m.pools.map fun kv => kv.2.getInfo

/-- The registry operations named by the consistency invariant of the spec.
Each carries the environment inputs (uuid draws, clocks, future-cancel
answers) its Python counterpart consumes. -/
inductive RegistryOp
  | submitOp (pool_id : Nat) (task_name : Option String) (fid : Nat) (now : Nat)
  | cancelOp (task_id : Nat) (futureCancelOk : Bool) (now : Nat)
  | closeOp (pool_id : Nat) (wait : Bool)
  | forceCloseOp (pool_id : Nat)
  | cleanupOp
deriving DecidableEq, Repr

/-- Whether the operation is one of the two pool-closing calls. -/
def RegistryOp.isCloseLike : RegistryOp → Bool
  | .closeOp _ _ => true
  | .forceCloseOp _ => true
  | _ => false

/-- Run a registry operation; a raised exception propagates to the caller
leaving the manager state unchanged, exactly as in the source where every
raise happens before the first mutation. -/
def applyRegistryOp (m : ThreadPoolManager) : RegistryOp → ThreadPoolManager
  | .submitOp pid nm fid now =>
    match m.submitTask pid nm fid now with
    | .ok r => r.1
    | .error _ => m
  | .cancelOp tid ok now =>
    match m.cancelTaskMgr tid ok now with
    | .ok r => r.1
    | .error _ => m
  | .closeOp pid w =>
    match m.closePool pid w with
    | .ok r => r.1
    | .error _ => m
  | .forceCloseOp pid =>
    match m.forceClosePool pid with
    | .ok r => r.1
    | .error _ => m
  | .cleanupOp => m.cleanupSweep

/-- The spec's registry invariant: every task id in the global index resolves,
via the task's stored pool id, to a registered pool. -/
def TaskPoolInv (m : ThreadPoolManager) : Prop :=
  ∀ k t, (k, t) ∈ m.tasks → acontains m.pools t.pool_id = true

/-- Registered pools carry their own key as `pool_id` (established by
`create_pool`). -/
def PoolIdInv (m : ThreadPoolManager) : Prop :=
  ∀ k p, (k, p) ∈ m.pools → p.pool_id = k

/-- Every registered pool is `RUNNING`: the two closing calls are the only
manager operations that stop a pool and both delete it in the same step. -/
def PoolsRunningInv (m : ThreadPoolManager) : Prop :=
  ∀ k p, (k, p) ∈ m.pools → p.status = .running

/-- Object aliasing between the two maps: the global index and the owning
pool's dict hold the same task object under the same id. -/
def TaskAliasInv (m : ThreadPoolManager) : Prop :=
  ∀ k t p t2, alookup m.tasks k = some t → alookup m.pools t.pool_id = some p →
    alookup p.tasks k = some t2 → t2 = t

/-- The pagination metadata dict built by `list_tasks` in `app.py`. -/
structure Pagination where
  current_page : Nat
  per_page : Nat
  total_items : Nat
  total_pages : Nat
  has_next : Bool
  has_prev : Bool
  start_item : Nat
  end_item : Nat
deriving DecidableEq, Repr

/-- The pagination logic of `GET /api/tasks` (`app.py` lines 120-163): clamp
`page` to at least 1 and `per_page` into `[1, 100]`, derive `total_pages` with
a ceiling division floored at 1, clamp the current page into
`[1, total_pages]`, and slice the task list. -/
def listTasksPage {α : Type} (items : List α) (page per_page : Int) :
    List α × Pagination :=
  let pageArg : Nat := (max 1 page).toNat
  let pp : Nat := (max 1 (min 100 per_page)).toNat
  let total_items := items.length
  let total_pages : Nat := max 1 ((total_items + pp - 1) / pp)
  let current_page : Nat := max 1 (min pageArg total_pages)
  let start_index := (current_page - 1) * pp
  ((items.drop start_index).take pp,
    { current_page := current_page
      per_page := pp
      total_items := total_items
      total_pages := total_pages
      has_next := decide (current_page < total_pages)
      has_prev := decide (1 < current_page)
      start_item := if 0 < total_items then start_index + 1 else 0
      end_item := min (current_page * pp) total_items })

/-- The task-mutating events of the code: the worker's `mark_running`, a
cancel request, the future's done-callback, and the direct
`task.status = TaskStatus.FAILED` write that `resize` performs when a
re-enqueue raises. -/
inductive TaskEvent
  | markRun (now : Nat)
  | cancelReq (futureCancelOk : Bool) (now : Nat)
  | complete (o : FutureOutcome) (now : Nat)
  | resizeSubmitFailed (msg : String)
deriving DecidableEq, Repr

/-- Apply one task event, dispatching to the corresponding source
operation. -/
def applyTaskEvent (t : ManagedTask) : TaskEvent → ManagedTask
  | .markRun now => t.markRunning now
  | .cancelReq ok now => (t.cancelTask ok now).1
  | .complete o now => t.onTaskComplete o now
  | .resizeSubmitFailed m => { t with status := .failed, error := some m }

/-- The edge set asserted by the spec's state machine (section 4.2). -/
def claimedEdge : TaskStatus → TaskStatus → Bool
  | .pending, .running => true
  | .running, .completed => true
  | .running, .failed => true
  | .running, .cancelled => true
  | .pending, .cancelled => true
  | _, _ => false

/-- The edge set the code actually realises: the claimed edges plus the direct
`Pending → Failed` write of the resize migration failure path. -/
def codeEdge (a b : TaskStatus) : Bool :=
  claimedEdge a b || (a == TaskStatus.pending && b == TaskStatus.failed)

/-- Concrete task fixture. -/
def exTask (id pid : Nat) (st : TaskStatus) : ManagedTask :=
  { task_id := id
    name := "t"
    pool_id := pid
    futureGen := 0
    submit_time := 0
    status := st }

/-- Concrete running pool fixture over a given task dict. -/
def exPool (pid : Nat) (mw : Int) (ts : List (Nat × ManagedTask)) :
    ManagedThreadPool :=
  { pool_id := pid
    name := "p"
    max_workers := mw
    executorGen := 0
    enqueued := ts.map Prod.fst
    status := .running
    tasks := ts }

/-- A running pool of capacity 2 holding two pending tasks. -/
def poolTwoPending : ManagedThreadPool :=
  exPool 1 2 [(10, exTask 10 1 .pending), (11, exTask 11 1 .pending)]

/-- Fault scenario: the re-submit of task 10 raises (inner `except`), and the
old executor's shutdown raises (outer `except`). -/
def faultMidResize : ResizeFault :=
  { newPoolFails := false
    submitFails := fun k => k == 10
    oldShutdownFails := true }

/-- A running pool of capacity 2 holding one pending task. -/
def poolOnePending : ManagedThreadPool :=
  exPool 3 2 [(20, exTask 20 3 .pending)]

/-- Fault scenario: the re-submit of task 20 raises, and the old executor's
shutdown raises. -/
def faultSubmit20 : ResizeFault :=
  { newPoolFails := false
    submitFails := fun k => k == 20
    oldShutdownFails := true }

/-- A registry holding one running pool with one pending task, indexed
globally. -/
def managerClose : ThreadPoolManager :=
  { pools := [(1, exPool 1 2 [(10, exTask 10 1 .pending)])]
    tasks := [(10, exTask 10 1 .pending)] }

/-- A registry holding one running pool with one completed task, indexed
globally. -/
def managerForce : ThreadPoolManager :=
  { pools := [(2, exPool 2 2 [(30, exTask 30 2 .completed)])]
    tasks := [(30, exTask 30 2 .completed)] }

/-- A running pool with one pending and one running task. -/
def poolMix : ManagedThreadPool :=
  exPool 4 2 [(40, exTask 40 4 .pending), (41, exTask 41 4 .running)]

/-- A running pool with one pending and one completed task. -/
def poolMix2 : ManagedThreadPool :=
  exPool 5 2 [(50, exTask 50 5 .pending), (51, exTask 51 5 .completed)]

/-- A registry holding one running pool with one pending and one completed
task, both indexed globally. -/
def managerW : ThreadPoolManager :=
  { pools := [(6, exPool 6 2 [(60, exTask 60 6 .pending), (61, exTask 61 6 .completed)])]
    tasks := [(60, exTask 60 6 .pending), (61, exTask 61 6 .completed)] }

/-- A task that has already completed, with `end_time` and a result. -/
def doneTask80 : ManagedTask :=
  { task_id := 80
    name := "t"
    pool_id := 1
    futureGen := 0
    submit_time := 0
    start_time := some 1
    end_time := some 2
    status := .completed
    result := some 5 }

/-- The empty registry. -/
def managerEmpty : ThreadPoolManager :=
  { pools := [], tasks := [] }

/-- A registry holding one running pool with no tasks yet. -/
def managerNoTasks : ThreadPoolManager :=
  { pools := [(8, exPool 8 2 [])], tasks := [] }

/-- The demo task list for the pagination example: twelve items, 1-indexed. -/
def demoItems : List Nat :=
  [1, 2, 3, 4, 5, 6, 7, 8, 9, 10, 11, 12]

section AssocLemmas

variable {α : Type}

theorem mem_of_alookup {l : List (Nat × α)} {k : Nat} {v : α}
    (h : alookup l k = some v) : (k, v) ∈ l := by
  induction l with
  | nil => simp [alookup] at h
  | cons hd tl ih =>
    obtain ⟨k', v'⟩ := hd
    by_cases hk : k' = k
    · subst hk
      simp [alookup] at h
      simp [h]
    · simp [alookup, hk] at h
      exact List.mem_cons_of_mem _ (ih h)

theorem alookup_of_mem_nodup {l : List (Nat × α)} {k : Nat} {v : α}
    (hnd : (l.map Prod.fst).Nodup) (h : (k, v) ∈ l) : alookup l k = some v := by
  induction l with
  | nil => simp at h
  | cons hd tl ih =>
    obtain ⟨k', v'⟩ := hd
    rw [List.map_cons, List.nodup_cons] at hnd
    rcases List.mem_cons.mp h with heq | hmem
    · cases heq
      simp [alookup]
    · have hk : k' ≠ k := by
        intro hkk
        subst hkk
        exact hnd.1 (List.mem_map.mpr ⟨(k', v), hmem, rfl⟩)
      simp [alookup, hk]
      exact ih hnd.2 hmem

theorem mem_unique_nodup {l : List (Nat × α)} {k : Nat} {a b : α}
    (hnd : (l.map Prod.fst).Nodup) (ha : (k, a) ∈ l) (hb : (k, b) ∈ l) : a = b := by
  have h1 := alookup_of_mem_nodup hnd ha
  have h2 := alookup_of_mem_nodup hnd hb
  rw [h1] at h2
  exact Option.some_inj.mp h2

theorem alookup_eq_none_iff {l : List (Nat × α)} {k : Nat} :
    alookup l k = none ↔ k ∉ l.map Prod.fst := by
  induction l with
  | nil => simp [alookup]
  | cons hd tl ih =>
    obtain ⟨k', v'⟩ := hd
    by_cases hk : k' = k
    · subst hk
      simp [alookup]
    · simp [alookup, hk, ih, Ne.symm hk]

theorem acontains_iff_mem_keys {l : List (Nat × α)} {k : Nat} :
    acontains l k = true ↔ k ∈ l.map Prod.fst := by
  unfold acontains
  rw [Option.isSome_iff_ne_none]
  constructor
  · intro h
    by_contra hmem
    exact h (alookup_eq_none_iff.mpr hmem)
  · intro h hnone
    exact alookup_eq_none_iff.mp hnone h

theorem acontains_false_iff {l : List (Nat × α)} {k : Nat} :
    acontains l k = false ↔ k ∉ l.map Prod.fst := by
  rw [← Bool.not_eq_true, not_iff_not]
  exact acontains_iff_mem_keys

theorem alookup_aset_self {l : List (Nat × α)} {k : Nat} {v : α} :
    alookup (aset l k v) k = some v := by
  induction l with
  | nil => simp [aset, alookup]
  | cons hd tl ih =>
    obtain ⟨k', v'⟩ := hd
    by_cases hk : k' = k
    · subst hk
      simp [aset, alookup]
    · simp [aset, alookup, hk, ih]

theorem alookup_aset_ne {l : List (Nat × α)} {k k' : Nat} {v : α}
    (h : k' ≠ k) : alookup (aset l k v) k' = alookup l k' := by
  induction l with
  | nil => simp [aset, alookup, Ne.symm h]
  | cons hd tl ih =>
    obtain ⟨k'', v''⟩ := hd
    by_cases hk : k'' = k
    · subst hk
      simp [aset, alookup, Ne.symm h]
    · by_cases hk2 : k'' = k'
      · subst hk2
        simp [aset, alookup, hk]
      · simp [aset, alookup, hk, hk2, ih]

theorem aset_of_not_contains {l : List (Nat × α)} {k : Nat} {v : α}
    (h : acontains l k = false) : aset l k v = l ++ [(k, v)] := by
  rw [acontains_false_iff] at h
  induction l with
  | nil => simp [aset]
  | cons hd tl ih =>
    obtain ⟨k', v'⟩ := hd
    rw [List.map_cons, List.mem_cons] at h
    push_neg at h
    have hk : k' ≠ k := fun hh => h.1 hh.symm
    simp [aset, hk, ih h.2]

theorem aset_self {l : List (Nat × α)} {k : Nat} {v : α}
    (h : alookup l k = some v) : aset l k v = l := by
  induction l with
  | nil => simp [alookup] at h
  | cons hd tl ih =>
    obtain ⟨k', v'⟩ := hd
    by_cases hk : k' = k
    · subst hk
      simp [alookup] at h
      simp [aset, h]
    · simp [alookup, hk] at h
      simp [aset, hk, ih h]

theorem acontains_aset {l : List (Nat × α)} {k k' : Nat} {v : α} :
    acontains (aset l k v) k' = (decide (k' = k) || acontains l k') := by
  by_cases hk : k' = k
  · subst hk
    simp [acontains, alookup_aset_self]
  · simp [acontains, alookup_aset_ne hk, hk]

theorem mem_of_mem_aerase {l : List (Nat × α)} {k : Nat} {x : Nat × α}
    (h : x ∈ aerase l k) : x ∈ l := by
  induction l with
  | nil => simp [aerase] at h
  | cons hd tl ih =>
    obtain ⟨k', v'⟩ := hd
    by_cases hk : k' = k
    · subst hk
      simp [aerase] at h
      exact List.mem_cons_of_mem _ h
    · simp [aerase, hk] at h
      rcases h with h | h
      · simp [h]
      · exact List.mem_cons_of_mem _ (ih h)

theorem alookup_aerase_self {l : List (Nat × α)} {k : Nat}
    (hnd : (l.map Prod.fst).Nodup) : alookup (aerase l k) k = none := by
  induction l with
  | nil => simp [aerase, alookup]
  | cons hd tl ih =>
    obtain ⟨k', v'⟩ := hd
    rw [List.map_cons, List.nodup_cons] at hnd
    by_cases hk : k' = k
    · subst hk
      simp [aerase]
      exact alookup_eq_none_iff.mpr hnd.1
    · simp [aerase, alookup, hk]
      exact ih hnd.2

theorem alookup_append {a b : List (Nat × α)} {k : Nat} :
    alookup (a ++ b) k =
      match alookup a k with
      | some v => some v
      | none => alookup b k := by
  induction a with
  | nil => simp [alookup]
  | cons hd tl ih =>
    obtain ⟨k', v'⟩ := hd
    by_cases hk : k' = k
    · subst hk
      simp [alookup]
    · simp [alookup, hk, ih]

theorem mem_aset {l : List (Nat × α)} {k : Nat} {v : α} {x : Nat × α}
    (h : x ∈ aset l k v) : x = (k, v) ∨ x ∈ l := by
  induction l with
  | nil => simp [aset] at h; simp [h]
  | cons hd tl ih =>
    obtain ⟨k', v'⟩ := hd
    by_cases hk : k' = k
    · subst hk
      simp [aset] at h
      rcases h with h | h
      · simp [h]
      · simp [h]
    · simp [aset, hk] at h
      rcases h with h | h
      · simp [h]
      · rcases ih h with h2 | h2
        · simp [h2]
        · simp [h2]

theorem alookup_map_val {β : Type} {l : List (Nat × α)} {k : Nat}
    (g : Nat × α → β) :
    alookup (l.map fun kv => (kv.1, g kv)) k =
      (alookup l k).map fun v => g (k, v) := by
  induction l with
  | nil => simp [alookup]
  | cons hd tl ih =>
    obtain ⟨k', v'⟩ := hd
    by_cases hk : k' = k
    · subst hk
      simp [alookup]
    · simp [alookup, hk, ih]

end AssocLemmas

/-- C5: for every pool in `Running` status, `resize` with `new_capacity < 1`
takes the invalid-parameter failure branch — `success = false` with the
invalid-parameter message — and returns with the pool (capacity, status and
task set) completely unchanged. -/
theorem resize_rejects_nonpositive_capacity (p : ManagedThreadPool)
    (fault : ResizeFault) (new : Int) (hrun : p.status = PoolStatus.running)
    (hlt : new < 1) :
    p.resize new fault =
      (p, { success := false, message := .invalidParamMsg new }) := by
  simp [ManagedThreadPool.resize, hrun, hlt]

/-- Witness for `resize_rejects_nonpositive_capacity` at a concrete running
pool and requested capacity 0. -/
theorem resize_rejects_nonpositive_capacity_witness :
    poolMix.status = PoolStatus.running ∧ ((0 : Int) < 1) ∧
    poolMix.resize 0 noFault =
      (poolMix, { success := false, message := .invalidParamMsg 0 }) :=
  ⟨rfl, by decide, resize_rejects_nonpositive_capacity poolMix noFault 0 rfl (by decide)⟩

/-- C1 (failing run): a `resize` of a running pool from capacity 2 to 3,
during which the re-submit of task 10 raises and the old executor's shutdown
raises, reports `success = false` — yet task 10 has been flipped from
`PENDING` to `FAILED` and task 11's future has been reattached to the new,
now-orphaned executor generation.  The pool is left half-migrated, not in its
pre-resize state. -/
theorem resize_fault_leaves_half_migrated :
    (poolTwoPending.resize 3 faultMidResize).2.success = false ∧
    (poolTwoPending.resize 3 faultMidResize).1.status = PoolStatus.running ∧
    (poolTwoPending.resize 3 faultMidResize).1.max_workers = poolTwoPending.max_workers ∧
    (alookup poolTwoPending.tasks 10).map ManagedTask.status = some TaskStatus.pending ∧
    (alookup (poolTwoPending.resize 3 faultMidResize).1.tasks 10).map ManagedTask.status =
      some TaskStatus.failed ∧
    (alookup poolTwoPending.tasks 11).map ManagedTask.futureGen = some 0 ∧
    (alookup (poolTwoPending.resize 3 faultMidResize).1.tasks 11).map ManagedTask.futureGen =
      some 1 := by
  decide

/-- C9: the pagination of `GET /api/tasks`: 12 items with `page=2, per_page=5`
yield items 6 through 10 with `total_pages=3`, `has_next`, `has_prev`;
`per_page=200` is clamped to 100, `page=0` to 1, and the current page always
lands in `[1, total_pages]`. -/
theorem list_tasks_pagination :
    (listTasksPage demoItems 2 5).1 = [6, 7, 8, 9, 10] ∧
    (listTasksPage demoItems 2 5).2.total_pages = 3 ∧
    (listTasksPage demoItems 2 5).2.has_next = true ∧
    (listTasksPage demoItems 2 5).2.has_prev = true ∧
    (∀ (items : List Nat) (page : Int),
      (listTasksPage items page 200).2.per_page = 100) ∧
    (∀ (items : List Nat) (pp : Int),
      (listTasksPage items 0 pp).2.current_page = 1) ∧
    (∀ (items : List Nat) (page pp : Int),
      1 ≤ (listTasksPage items page pp).2.current_page ∧
      (listTasksPage items page pp).2.current_page ≤
        (listTasksPage items page pp).2.total_pages) := by
  refine ⟨by decide, by decide, by decide, by decide, ?_, ?_, ?_⟩
  · intro items page
    rfl
  · intro items pp
    dsimp only [listTasksPage]
    have hA : (max (1 : Int) 0).toNat = 1 := rfl
    rw [hA]
    have key : ∀ T : Nat, 1 ≤ T → max 1 (min 1 T) = 1 := by
      intro T hT
      omega
    exact key _ (Nat.le_max_left _ _)
  · intro items page pp
    dsimp only [listTasksPage]
    constructor
    · exact Nat.le_max_left _ _
    · have key : ∀ P T : Nat, 1 ≤ T → max 1 (min P T) ≤ T := by
        intro P T hT
        omega
      exact key _ _ (Nat.le_max_left _ _)

/-- C10 (counterexample): requesting capacity -3 registers no pool at all —
`ThreadPoolExecutor.__init__` raises `ValueError` inside the pool
constructor, so `create_pool` propagates the error; the claim's conclusion
that the positive-capacity invariant is not checked at creation is false for
negative requests. -/
theorem create_pool_negative_rejected_counterexample :
    managerEmpty.createPool none (some (-3)) 7 =
      Except.error (MgrErr.valueError (PyValueErr.maxWorkersNotPositive (-3))) := by
  rfl

/-- C10 (amended): `create_pool` with `max_workers` omitted, `None`, or `0`
yields a pool of capacity 5 (`max_workers or 5`); any requested capacity of
at least 1 is stored as given; a negative request fails with the `ValueError`
raised by the stdlib executor constructor, registering nothing.  The package
itself performs no capacity validation — `0` silently becomes 5 rather than
being rejected, and the only check on negative values lives in
`ThreadPoolExecutor.__init__` — but in effect no pool with capacity below 1
is ever created. -/
theorem create_pool_capacity_behaviour (m : ThreadPoolManager)
    (name : Option String) (fid : Nat)
    (hname : (m.pools.any fun kv => kv.2.name == resolvePoolName name fid) = false) :
    (∀ mw : Option Int, mw = none ∨ mw = some 0 →
      ∃ m', m.createPool name mw fid = .ok (m', fid) ∧
        (alookup m'.pools fid).map ManagedThreadPool.max_workers = some 5) ∧
    (∀ v : Int, 1 ≤ v →
      ∃ m', m.createPool name (some v) fid = .ok (m', fid) ∧
        (alookup m'.pools fid).map ManagedThreadPool.max_workers = some v) ∧
    (∀ v : Int, v < 0 →
      m.createPool name (some v) fid =
        Except.error (MgrErr.valueError (PyValueErr.maxWorkersNotPositive v))) := by
  refine ⟨?_, ?_, ?_⟩
  · intro mw hmw
    refine ⟨⟨aset m.pools fid
        ⟨fid, resolvePoolName name fid, 5, 0, [], PoolStatus.running, []⟩, m.tasks⟩, ?_, ?_⟩
    · rcases hmw with h | h <;> subst h <;>
        simp [ThreadPoolManager.createPool, hname, mkManagedThreadPool]
    · simp [alookup_aset_self]
  · intro v hv
    have hv0 : ¬(v = 0) := by omega
    have hvpos : ¬(v ≤ 0) := by omega
    refine ⟨⟨aset m.pools fid
        ⟨fid, resolvePoolName name fid, v, 0, [], PoolStatus.running, []⟩, m.tasks⟩, ?_, ?_⟩
    · simp [ThreadPoolManager.createPool, hname, mkManagedThreadPool, hv0, hvpos]
    · simp [alookup_aset_self]
  · intro v hv
    have hv0 : ¬(v = 0) := by omega
    have hvneg : v ≤ 0 := by omega
    simp [ThreadPoolManager.createPool, hname, mkManagedThreadPool, hv0, hvneg]

/-- Witness for `create_pool_capacity_behaviour` on the empty registry:
omitted capacity gives 5, a requested 3 is stored, and a requested -3 raises
the propagated `ValueError`. -/
theorem create_pool_capacity_behaviour_witness :
    (∃ m', managerEmpty.createPool none none 7 = .ok (m', 7) ∧
      (alookup m'.pools 7).map ManagedThreadPool.max_workers = some 5) ∧
    (∃ m', managerEmpty.createPool none (some 3) 7 = .ok (m', 7) ∧
      (alookup m'.pools 7).map ManagedThreadPool.max_workers = some 3) ∧
    managerEmpty.createPool none (some (-3)) 7 =
      Except.error (MgrErr.valueError (PyValueErr.maxWorkersNotPositive (-3))) := by
  have h := create_pool_capacity_behaviour managerEmpty none 7 rfl
  exact ⟨h.1 none (Or.inl rfl), h.2.1 3 (by decide), h.2.2 (-3) (by decide)⟩

/-- C6: `submit` raises `InvalidPoolStateError` exactly when the pool is not
`RUNNING`; on a running pool it returns the generated task id of a fresh
`PENDING` task — carrying the generated id, the pool's id and the default
name when none was given — registered in the pool's task dict before the call
returns. -/
theorem submit_behaviour (p : ManagedThreadPool) (nm : Option String)
    (fid now : Nat) :
    ((∃ e, p.submit nm fid now = Except.error e) ↔ p.status ≠ PoolStatus.running) ∧
    (p.status ≠ PoolStatus.running →
      p.submit nm fid now = Except.error PoolErr.invalidPoolState) ∧
    (p.status = PoolStatus.running → ∃ p' t,
      p.submit nm fid now = Except.ok (p', fid) ∧
      alookup p'.tasks fid = some t ∧
      t.status = TaskStatus.pending ∧
      t.task_id = fid ∧
      t.pool_id = p.pool_id ∧
      t.name = resolveTaskName nm fid ∧
      (nm = none → t.name = defaultTaskName fid)) := by
  by_cases hst : p.status = PoolStatus.running
  · refine ⟨?_, ?_, ?_⟩
    · simp [ManagedThreadPool.submit, hst]
    · intro h
      exact absurd hst h
    · intro _
      have heq : p.submit nm fid now = Except.ok
          (⟨p.pool_id, p.name, p.max_workers, p.executorGen, p.enqueued ++ [fid], p.status,
            aset p.tasks fid ⟨fid, resolveTaskName nm fid, p.pool_id, p.executorGen, now,
              none, none, TaskStatus.pending, none, none⟩⟩, fid) := by
        simp [ManagedThreadPool.submit, hst]
      exact ⟨_, _, heq, alookup_aset_self, rfl, rfl, rfl, rfl,
        fun h => by simp [h, resolveTaskName]⟩
  · refine ⟨?_, ?_, ?_⟩
    · simp [ManagedThreadPool.submit, hst]
      exact ⟨PoolErr.invalidPoolState, trivial⟩
    · intro _
      simp [ManagedThreadPool.submit, hst]
    · intro h
      exact absurd h hst

/-- Witness for `submit_behaviour`: submitting to a concrete running pool
yields a registered pending task with the default name. -/
theorem submit_behaviour_witness :
    poolMix.status = PoolStatus.running ∧
    (∃ p' t, poolMix.submit none 99 5 = Except.ok (p', 99) ∧
      alookup p'.tasks 99 = some t ∧
      t.status = TaskStatus.pending ∧
      t.task_id = 99 ∧
      t.pool_id = poolMix.pool_id ∧
      t.name = resolveTaskName none 99 ∧
      ((none : Option String) = none → t.name = defaultTaskName 99)) :=
  ⟨rfl, (submit_behaviour poolMix none 99 5).2.2 rfl⟩

/-- C7: `cancel` on a `PENDING` task (whose future accepts the cancel, which a
not-yet-started future does) flips it to `CANCELLED` and returns `true`; on
any terminal task it returns `false` and changes nothing; an unknown id makes
the pool-level `cancel_task` return `false`. -/
theorem cancel_behaviour (p : ManagedThreadPool) (tid now : Nat) :
    (∀ t, alookup p.tasks tid = some t → t.status = TaskStatus.pending →
      (p.cancelInPool tid true now).2 = true ∧
      (alookup (p.cancelInPool tid true now).1.tasks tid).map ManagedTask.status =
        some TaskStatus.cancelled) ∧
    (∀ t b, alookup p.tasks tid = some t → t.status.isDone = true →
      p.cancelInPool tid b now = (p, false)) ∧
    (∀ b, alookup p.tasks tid = none → p.cancelInPool tid b now = (p, false)) := by
  refine ⟨?_, ?_, ?_⟩
  · intro t ht hpend
    have hc : t.cancelTask true now =
        ({ t with status := .cancelled, end_time := some now }, true) := by
      simp [ManagedTask.cancelTask, hpend]
    simp [ManagedThreadPool.cancelInPool, ht, hc, alookup_aset_self]
  · intro t b ht hdone
    have hnp : t.status ≠ TaskStatus.pending := by
      intro h
      rw [h] at hdone
      exact absurd hdone (by decide)
    have hnr : t.status ≠ TaskStatus.running := by
      intro h
      rw [h] at hdone
      exact absurd hdone (by decide)
    have hc : t.cancelTask b now = (t, false) := by
      simp [ManagedTask.cancelTask, hnp, hnr]
    have hps : aset p.tasks tid t = p.tasks := aset_self ht
    simp [ManagedThreadPool.cancelInPool, ht, hc, hps]
  · intro b hnone
    simp [ManagedThreadPool.cancelInPool, hnone]

/-- Witness for `cancel_behaviour` on a concrete pool: cancelling its pending
task succeeds, cancelling its completed task is a no-op returning `false`,
and an unknown id returns `false`. -/
theorem cancel_behaviour_witness :
    ((poolMix2.cancelInPool 50 true 9).2 = true ∧
      (alookup (poolMix2.cancelInPool 50 true 9).1.tasks 50).map ManagedTask.status =
        some TaskStatus.cancelled) ∧
    poolMix2.cancelInPool 51 false 9 = (poolMix2, false) ∧
    poolMix2.cancelInPool 77 true 9 = (poolMix2, false) :=
  ⟨(cancel_behaviour poolMix2 50 9).1 (exTask 50 5 .pending) (by decide) rfl,
    (cancel_behaviour poolMix2 51 9).2.1 (exTask 51 5 .completed) false (by decide) (by decide),
    (cancel_behaviour poolMix2 77 9).2.2 true (by decide)⟩

theorem keys_map_bump (g : Nat) (l : List (Nat × ManagedTask)) :
    ((l.map fun kv => (kv.1, { kv.2 with futureGen := g })).map Prod.fst) =
      l.map Prod.fst := by
  induction l with
  | nil => rfl
  | cons hd tl ih => simp [ih]

theorem migratePending_noFault_closed (g : Nat) (l : List (Nat × ManagedTask)) :
    ∀ (acc : List (Nat × ManagedTask)) (q : List Nat) (c : Nat),
      (l.map Prod.fst).Nodup →
      (∀ k, k ∈ l.map Prod.fst → acontains acc k = false) →
      migratePending noFault g l acc q c =
        (acc ++ l.map (fun kv => (kv.1, { kv.2 with futureGen := g })),
          q ++ l.map Prod.fst, c + l.length) := by
  induction l with
  | nil =>
    intro acc q c _ _
    simp [migratePending]
  | cons hd tl ih =>
    intro acc q c hnd hdisj
    obtain ⟨k, t⟩ := hd
    rw [List.map_cons, List.nodup_cons] at hnd
    have hacc : acontains acc k = false := hdisj k (by simp)
    have hdisj2 : ∀ k', k' ∈ tl.map Prod.fst →
        acontains (acc ++ [(k, { t with futureGen := g })]) k' = false := by
      intro k' hk'
      rw [acontains_false_iff]
      intro hmem
      rw [List.map_append] at hmem
      rcases List.mem_append.mp hmem with h | h
      · exact absurd h (acontains_false_iff.mp (hdisj k' (by simp [hk'])))
      · simp at h
        subst h
        exact hnd.1 hk'
    simp only [migratePending]
    rw [aset_of_not_contains hacc, ih _ _ _ hnd.2 hdisj2]
    have hc : c + 1 + tl.length = c + (tl.length + 1) := by omega
    simp [List.append_assoc, hc, show noFault.submitFails k = false from rfl]

theorem insertAll_closed (l : List (Nat × ManagedTask)) :
    ∀ acc : List (Nat × ManagedTask),
      (l.map Prod.fst).Nodup →
      (∀ k, k ∈ l.map Prod.fst → acontains acc k = false) →
      insertAll l acc = acc ++ l := by
  induction l with
  | nil =>
    intro acc _ _
    simp [insertAll]
  | cons hd tl ih =>
    intro acc hnd hdisj
    obtain ⟨k, t⟩ := hd
    rw [List.map_cons, List.nodup_cons] at hnd
    have hacc : acontains acc k = false := hdisj k (by simp)
    have hdisj2 : ∀ k', k' ∈ tl.map Prod.fst →
        acontains (acc ++ [(k, t)]) k' = false := by
      intro k' hk'
      rw [acontains_false_iff]
      intro hmem
      rw [List.map_append] at hmem
      rcases List.mem_append.mp hmem with h | h
      · exact absurd h (acontains_false_iff.mp (hdisj k' (by simp [hk'])))
      · simp at h
        subst h
        exact hnd.1 hk'
    simp only [insertAll]
    rw [aset_of_not_contains hacc, ih (acc ++ [(k, t)]) hnd.2 hdisj2]
    simp

theorem pending_running_keys_disjoint (l : List (Nat × ManagedTask))
    (hnd : (l.map Prod.fst).Nodup) (k : Nat)
    (hp : k ∈ (l.filter fun kv => kv.2.status == TaskStatus.pending).map Prod.fst)
    (hr : k ∈ (l.filter fun kv => kv.2.status == TaskStatus.running).map Prod.fst) :
    False := by
  rcases List.mem_map.mp hp with ⟨⟨k1, a⟩, ha, hka⟩
  rcases List.mem_map.mp hr with ⟨⟨k2, b⟩, hb, hkb⟩
  obtain ⟨hmema, hpa⟩ := List.mem_filter.mp ha
  obtain ⟨hmemb, hpb⟩ := List.mem_filter.mp hb
  simp at hka hkb hpa hpb
  subst hka
  subst hkb
  have hab := mem_unique_nodup hnd hmema hmemb
  rw [hab] at hpa
  rw [hpb] at hpa
  exact absurd hpa (by decide)

/-- C2: a successful `resize` of a running pool to a valid, different capacity
re-enqueues into the new executor exactly the ids of the tasks that were
`PENDING` at invocation (and `migrated_tasks` counts exactly them), while the
tasks `RUNNING` at invocation are carried into the pool's task dict unchanged,
are not re-enqueued, and appear exactly once (no loss, no duplication). -/
theorem resize_migration_exact (p : ManagedThreadPool) (new : Int)
    (hrun : p.status = PoolStatus.running) (hge : 1 ≤ new)
    (hne : new ≠ p.max_workers)
    (hnd : (p.tasks.map Prod.fst).Nodup) :
    (p.resize new noFault).2.success = true ∧
    (p.resize new noFault).2.migrated_tasks =
      (p.tasks.filter fun kv => kv.2.status == TaskStatus.pending).length ∧
    (p.resize new noFault).1.enqueued =
      (p.tasks.filter fun kv => kv.2.status == TaskStatus.pending).map Prod.fst ∧
    ((p.resize new noFault).1.tasks.map Prod.fst).Nodup ∧
    (∀ k t, (k, t) ∈ p.tasks → t.status = TaskStatus.running →
      alookup (p.resize new noFault).1.tasks k = some t ∧
      k ∉ (p.resize new noFault).1.enqueued) := by
  have hlt : ¬(new < 1) := by omega
  have hpendnd :
      ((p.tasks.filter fun kv => kv.2.status == TaskStatus.pending).map Prod.fst).Nodup :=
    List.Nodup.sublist ((List.filter_sublist _).map Prod.fst) hnd
  have hrunnd :
      ((p.tasks.filter fun kv => kv.2.status == TaskStatus.running).map Prod.fst).Nodup :=
    List.Nodup.sublist ((List.filter_sublist _).map Prod.fst) hnd
  have hmig := migratePending_noFault_closed (p.executorGen + 1)
    (p.tasks.filter fun kv => kv.2.status == TaskStatus.pending) [] [] 0 hpendnd
    (fun _ _ => rfl)
  have hdisjBR : ∀ k,
      k ∈ (p.tasks.filter fun kv => kv.2.status == TaskStatus.running).map Prod.fst →
      acontains ((p.tasks.filter fun kv => kv.2.status == TaskStatus.pending).map
        fun kv => (kv.1, { kv.2 with futureGen := p.executorGen + 1 })) k = false := by
    intro k hk
    rw [acontains_false_iff]
    intro hmem
    rw [keys_map_bump] at hmem
    exact pending_running_keys_disjoint p.tasks hnd k hmem hk
  have hins := insertAll_closed
    (p.tasks.filter fun kv => kv.2.status == TaskStatus.running)
    ((p.tasks.filter fun kv => kv.2.status == TaskStatus.pending).map
      fun kv => (kv.1, { kv.2 with futureGen := p.executorGen + 1 }))
    hrunnd hdisjBR
  refine ⟨?_, ?_, ?_, ?_, ?_⟩
  · simp [ManagedThreadPool.resize, hrun, hlt, hne, hmig, hins,
      show noFault.newPoolFails = false from rfl,
      show noFault.oldShutdownFails = false from rfl]
  · simp [ManagedThreadPool.resize, hrun, hlt, hne, hmig, hins,
      show noFault.newPoolFails = false from rfl,
      show noFault.oldShutdownFails = false from rfl]
  · simp [ManagedThreadPool.resize, hrun, hlt, hne, hmig, hins,
      show noFault.newPoolFails = false from rfl,
      show noFault.oldShutdownFails = false from rfl]
  · simp [ManagedThreadPool.resize, hrun, hlt, hne, hmig, hins,
      show noFault.newPoolFails = false from rfl,
      show noFault.oldShutdownFails = false from rfl,
      keys_map_bump]
    exact List.Nodup.append hpendnd hrunnd
      (fun a ha hb => pending_running_keys_disjoint p.tasks hnd a ha hb)
  · intro k t hmem ht
    have htb : (t.status == TaskStatus.running) = true := by simp [ht]
    have hmemrun : (k, t) ∈ p.tasks.filter fun kv => kv.2.status == TaskStatus.running :=
      List.mem_filter.mpr ⟨hmem, htb⟩
    have hkrun :
        k ∈ (p.tasks.filter fun kv => kv.2.status == TaskStatus.running).map Prod.fst :=
      List.mem_map.mpr ⟨(k, t), hmemrun, rfl⟩
    have hknotpend :
        k ∉ (p.tasks.filter fun kv => kv.2.status == TaskStatus.pending).map Prod.fst :=
      fun hk => pending_running_keys_disjoint p.tasks hnd k hk hkrun
    constructor
    · simp only [ManagedThreadPool.resize, hrun, hlt, hne, hmig, hins]
      simp [show noFault.newPoolFails = false from rfl,
        show noFault.oldShutdownFails = false from rfl, hrun, hlt, hne, hmig, hins,
        ManagedThreadPool.resize]
      rw [alookup_append]
      have h1 : alookup ((p.tasks.filter fun kv => kv.2.status == TaskStatus.pending).map
          fun kv => (kv.1, { kv.2 with futureGen := p.executorGen + 1 })) k = none :=
        alookup_eq_none_iff.mpr (by rw [keys_map_bump]; exact hknotpend)
      rw [h1]
      exact alookup_of_mem_nodup hrunnd hmemrun
    · simp [ManagedThreadPool.resize, hrun, hlt, hne, hmig, hins,
        show noFault.newPoolFails = false from rfl,
        show noFault.oldShutdownFails = false from rfl]
      intro x hx hpx
      exact pending_running_keys_disjoint p.tasks hnd k
        (List.mem_map.mpr ⟨(k, x), List.mem_filter.mpr ⟨hx, by simp [hpx]⟩, rfl⟩) hkrun

/-- Witness for `resize_migration_exact`: resizing a concrete running pool
(one pending task 40, one running task 41) from capacity 2 to 3. -/
theorem resize_migration_exact_witness :
    (poolMix.resize 3 noFault).2.success = true ∧
    (poolMix.resize 3 noFault).2.migrated_tasks =
      (poolMix.tasks.filter fun kv => kv.2.status == TaskStatus.pending).length ∧
    (poolMix.resize 3 noFault).1.enqueued =
      (poolMix.tasks.filter fun kv => kv.2.status == TaskStatus.pending).map Prod.fst ∧
    ((poolMix.resize 3 noFault).1.tasks.map Prod.fst).Nodup ∧
    (alookup (poolMix.resize 3 noFault).1.tasks 41 = some (exTask 41 4 TaskStatus.running) ∧
      41 ∉ (poolMix.resize 3 noFault).1.enqueued) := by
  have h := resize_migration_exact poolMix 3 rfl (by decide) (by decide) (by decide)
  exact ⟨h.1, h.2.1, h.2.2.1, h.2.2.2.1,
    h.2.2.2.2 41 (exTask 41 4 TaskStatus.running) (by decide) rfl⟩

/-- C3 (counterexample): two divergences from the claimed state machine.
First, during a resize of a running pool whose single task 20 is `PENDING`
and whose re-submit raises, the code writes `FAILED` directly into the task —
a `Pending → Failed` edge outside the claimed relation — stamping no
`end_time`.  Second, `_on_task_complete` is unguarded: fired on a task that
is already `COMPLETED` (which happens in the program, because resize leaves
the superseded executor's queued work item alive, so a migrated pending task
runs on both executors and its second future's callback lands on a terminal
task), it moves the task out of the terminal state — `Completed → Failed`
here — and rewrites the already-assigned `end_time`. -/
theorem task_pending_to_failed_counterexample :
    ((alookup poolOnePending.tasks 20).map ManagedTask.status = some TaskStatus.pending ∧
      (alookup (poolOnePending.resize 1 faultSubmit20).1.tasks 20).map ManagedTask.status =
        some TaskStatus.failed ∧
      (alookup (poolOnePending.resize 1 faultSubmit20).1.tasks 20).map ManagedTask.end_time =
        some none ∧
      claimedEdge TaskStatus.pending TaskStatus.failed = false) ∧
    (doneTask80.status = TaskStatus.completed ∧
      doneTask80.status.isDone = true ∧
      doneTask80.end_time = some 2 ∧
      (doneTask80.onTaskComplete (FutureOutcome.raised "boom") 7).status =
        TaskStatus.failed ∧
      (doneTask80.onTaskComplete (FutureOutcome.raised "boom") 7).end_time = some 7 ∧
      claimedEdge TaskStatus.completed TaskStatus.failed = false) := by
  decide

/-- C3 (amended): every status write lands on a code edge: the claimed edges
`Pending → Running` (the worker's `mark_running`), `Pending/Running →
Cancelled` (a successful cancel), the direct `Pending → Failed` write of a
failed resize re-enqueue (which assigns no `end_time`), or a future
done-callback, which always lands in a terminal state and stamps `end_time`
but is unguarded — fired on an already-terminal task (reachable, since resize
leaves the superseded executor's queued work items alive) it can move the
task between terminal states and reassign `end_time`.  Consequently only the
guarded mutators `mark_running` and `cancel` never move a task out of a
terminal state; `start_time` changes only on `Pending → Running` and
`mark_running` is its sole writer, so it is assigned exactly once; `end_time`
changes only to a terminal-state stamp, assigned on every completion, though
not exactly once.  The single hypothesis mirrors resize's code, which applies
the failure write only to tasks from its `PENDING` snapshot. -/
theorem task_transition_discipline (t : ManagedTask) (e : TaskEvent)
    (hr : ∀ msg, e = TaskEvent.resizeSubmitFailed msg → t.status = TaskStatus.pending) :
    ((applyTaskEvent t e).status ≠ t.status →
      (codeEdge t.status (applyTaskEvent t e).status = true ∨
        ∃ o now, e = TaskEvent.complete o now ∧
          (applyTaskEvent t e).status.isDone = true)) ∧
    (t.status.isDone = true →
      (∀ now, t.markRunning now = t) ∧
      (∀ ok now, t.cancelTask ok now = (t, false))) ∧
    ((applyTaskEvent t e).start_time ≠ t.start_time →
      t.status = TaskStatus.pending ∧ (applyTaskEvent t e).status = TaskStatus.running) ∧
    ((applyTaskEvent t e).end_time ≠ t.end_time →
      (applyTaskEvent t e).status.isDone = true) ∧
    (∀ o now, e = TaskEvent.complete o now →
      (applyTaskEvent t e).end_time = some now ∧
      (applyTaskEvent t e).status.isDone = true) := by
  refine ⟨?_, ?_, ?_, ?_, ?_⟩
  · cases e with
    | markRun now =>
      cases hst : t.status <;>
        simp [applyTaskEvent, ManagedTask.markRunning, hst, codeEdge, claimedEdge]
    | cancelReq ok now =>
      cases hst : t.status <;> cases ok <;>
        simp [applyTaskEvent, ManagedTask.cancelTask, hst, codeEdge, claimedEdge]
    | complete o now =>
      intro _
      refine Or.inr ⟨o, now, rfl, ?_⟩
      cases o <;> simp [applyTaskEvent, ManagedTask.onTaskComplete, TaskStatus.isDone]
    | resizeSubmitFailed msg =>
      have hp : t.status = TaskStatus.pending := hr msg rfl
      intro _
      refine Or.inl ?_
      simp [applyTaskEvent, hp, codeEdge, claimedEdge]
  · intro hdone
    have hnp : t.status ≠ TaskStatus.pending := by
      intro h
      rw [h] at hdone
      exact absurd hdone (by decide)
    have hnr : t.status ≠ TaskStatus.running := by
      intro h
      rw [h] at hdone
      exact absurd hdone (by decide)
    constructor
    · intro now
      simp [ManagedTask.markRunning, hnp]
    · intro ok now
      simp [ManagedTask.cancelTask, hnp, hnr]
  · cases e with
    | markRun now =>
      cases hst : t.status <;>
        simp [applyTaskEvent, ManagedTask.markRunning, hst]
    | cancelReq ok now =>
      cases hst : t.status <;> cases ok <;>
        simp [applyTaskEvent, ManagedTask.cancelTask, hst]
    | complete o now =>
      cases o <;> simp [applyTaskEvent, ManagedTask.onTaskComplete]
    | resizeSubmitFailed msg =>
      intro hstart
      exact absurd rfl hstart
  · cases e with
    | markRun now =>
      cases hst : t.status <;>
        simp [applyTaskEvent, ManagedTask.markRunning, hst, TaskStatus.isDone]
    | cancelReq ok now =>
      cases hst : t.status <;> cases ok <;>
        simp [applyTaskEvent, ManagedTask.cancelTask, hst, TaskStatus.isDone]
    | complete o now =>
      cases o <;> simp [applyTaskEvent, ManagedTask.onTaskComplete, TaskStatus.isDone]
    | resizeSubmitFailed msg =>
      intro hend
      exact absurd rfl hend
  · intro o now he
    subst he
    cases o <;> simp [applyTaskEvent, ManagedTask.onTaskComplete, TaskStatus.isDone]

/-- Witness for `task_transition_discipline`: the worker marks a concrete
pending task running. -/
theorem task_transition_discipline_witness :
    ((applyTaskEvent (exTask 70 1 TaskStatus.pending) (TaskEvent.markRun 1)).status ≠
        (exTask 70 1 TaskStatus.pending).status →
      (codeEdge (exTask 70 1 TaskStatus.pending).status
          (applyTaskEvent (exTask 70 1 TaskStatus.pending) (TaskEvent.markRun 1)).status =
            true ∨
        ∃ o now, TaskEvent.markRun 1 = TaskEvent.complete o now ∧
          (applyTaskEvent (exTask 70 1 TaskStatus.pending)
            (TaskEvent.markRun 1)).status.isDone = true)) ∧
    ((exTask 70 1 TaskStatus.pending).status.isDone = true →
      (∀ now, (exTask 70 1 TaskStatus.pending).markRunning now =
        exTask 70 1 TaskStatus.pending) ∧
      (∀ ok now, (exTask 70 1 TaskStatus.pending).cancelTask ok now =
        (exTask 70 1 TaskStatus.pending, false))) ∧
    ((applyTaskEvent (exTask 70 1 TaskStatus.pending) (TaskEvent.markRun 1)).start_time ≠
        (exTask 70 1 TaskStatus.pending).start_time →
      (exTask 70 1 TaskStatus.pending).status = TaskStatus.pending ∧
      (applyTaskEvent (exTask 70 1 TaskStatus.pending) (TaskEvent.markRun 1)).status =
        TaskStatus.running) ∧
    ((applyTaskEvent (exTask 70 1 TaskStatus.pending) (TaskEvent.markRun 1)).end_time ≠
        (exTask 70 1 TaskStatus.pending).end_time →
      (applyTaskEvent (exTask 70 1 TaskStatus.pending)
        (TaskEvent.markRun 1)).status.isDone = true) ∧
    (∀ o now, TaskEvent.markRun 1 = TaskEvent.complete o now →
      (applyTaskEvent (exTask 70 1 TaskStatus.pending) (TaskEvent.markRun 1)).end_time =
        some now ∧
      (applyTaskEvent (exTask 70 1 TaskStatus.pending)
        (TaskEvent.markRun 1)).status.isDone = true) :=
  task_transition_discipline (exTask 70 1 TaskStatus.pending) (TaskEvent.markRun 1)
    (fun _ h => nomatch h)

theorem cancelTask_pool_id (t : ManagedTask) (b : Bool) (now : Nat) :
    ((t.cancelTask b now).1).pool_id = t.pool_id := by
  unfold ManagedTask.cancelTask
  split_ifs <;> rfl

/-- C4 (counterexample): `close_pool` prunes only the closed pool's terminal
tasks, so its pending task 10 survives in the global index while its pool is
gone; `force_close_pool` prunes only the non-terminal tasks, so the completed
task 30 survives while its pool is gone.  Both operations break the
task-to-pool resolution invariant. -/
theorem registry_close_breaks_invariant :
    TaskPoolInv managerClose ∧
    ¬TaskPoolInv (applyRegistryOp managerClose (RegistryOp.closeOp 1 false)) ∧
    TaskPoolInv managerForce ∧
    ¬TaskPoolInv (applyRegistryOp managerForce (RegistryOp.forceCloseOp 2)) := by
  refine ⟨?_, ?_, ?_, ?_⟩
  · intro k t h
    simp [managerClose] at h
    obtain ⟨hk, ht⟩ := h
    subst hk
    subst ht
    decide
  · intro h
    have hmem : (10, exTask 10 1 TaskStatus.pending) ∈
        (applyRegistryOp managerClose (RegistryOp.closeOp 1 false)).tasks := by
      decide
    exact absurd (h 10 (exTask 10 1 TaskStatus.pending) hmem) (by decide)
  · intro k t h
    simp [managerForce] at h
    obtain ⟨hk, ht⟩ := h
    subst hk
    subst ht
    decide
  · intro h
    have hmem : (30, exTask 30 2 TaskStatus.completed) ∈
        (applyRegistryOp managerForce (RegistryOp.forceCloseOp 2)).tasks := by
      decide
    exact absurd (h 30 (exTask 30 2 TaskStatus.completed) hmem) (by decide)

/-- C4 (amended): after `submit_task`, `cancel_task` and a cleanup sweep,
every task id in the global index still resolves through its stored pool id
to a registered pool — given a consistent starting registry (pools keyed by
their own id, all registered pools running, and both maps aliasing the same
task objects).  The two closing operations are excluded: as the
counterexample shows, `close_pool` and `force_close_pool` each strand part of
the closed pool's tasks in the index. -/
theorem registry_invariant_preserved (m : ThreadPoolManager) (op : RegistryOp)
    (h1 : TaskPoolInv m) (h2 : PoolIdInv m) (h3 : PoolsRunningInv m)
    (h4 : TaskAliasInv m) (hop : op.isCloseLike = false) :
    TaskPoolInv (applyRegistryOp m op) := by
  cases op with
  | submitOp pid nm fid now =>
    simp only [applyRegistryOp]
    cases hp : alookup m.pools pid with
    | none =>
      simp [ThreadPoolManager.submitTask, hp]
      exact h1
    | some pool =>
      by_cases hst : pool.status = PoolStatus.running
      · have hsub : pool.submit nm fid now = Except.ok
            (⟨pool.pool_id, pool.name, pool.max_workers, pool.executorGen,
              pool.enqueued ++ [fid], pool.status,
              aset pool.tasks fid ⟨fid, resolveTaskName nm fid, pool.pool_id,
                pool.executorGen, now, none, none, TaskStatus.pending, none, none⟩⟩, fid) := by
          simp [ManagedThreadPool.submit, hst]
        have hpid : pool.pool_id = pid := h2 pid pool (mem_of_alookup hp)
        simp only [ThreadPoolManager.submitTask, hp, hsub, alookup_aset_self]
        intro k t hmem
        rcases mem_aset hmem with heq | hold
        · injection heq with hk ht
          subst ht
          rw [acontains_aset]
          simp [hpid]
        · rw [acontains_aset]
          simp [h1 k t hold]
      · have hsub : pool.submit nm fid now = Except.error PoolErr.invalidPoolState := by
          simp [ManagedThreadPool.submit, hst]
        simp [ThreadPoolManager.submitTask, hp, hsub]
        exact h1
  | cancelOp tid ok now =>
    simp only [applyRegistryOp]
    cases htid : alookup m.tasks tid with
    | none =>
      simp [ThreadPoolManager.cancelTaskMgr, htid]
      exact h1
    | some task =>
      cases hpl : alookup m.pools task.pool_id with
      | none =>
        simp [ThreadPoolManager.cancelTaskMgr, htid, hpl]
        exact h1
      | some pool =>
        have hmutpid :
            ((alookup (pool.cancelInPool tid ok now).1.tasks tid).getD task).pool_id =
              task.pool_id := by
          unfold ManagedThreadPool.cancelInPool
          cases hpt : alookup pool.tasks tid with
          | none => simp [hpt]
          | some t2 =>
            have ht2 : t2 = task := h4 tid task pool t2 htid hpl hpt
            subst ht2
            simp [hpt, alookup_aset_self, cancelTask_pool_id]
        have hstep : ∀ k t', (k, t') ∈ aset m.tasks tid
            ((alookup (pool.cancelInPool tid ok now).1.tasks tid).getD task) →
            acontains (aset m.pools task.pool_id (pool.cancelInPool tid ok now).1)
              t'.pool_id = true := by
          intro k t' hmem
          rcases mem_aset hmem with heq | hold
          · injection heq with hk ht'
            subst ht'
            rw [acontains_aset, hmutpid]
            simp
          · rw [acontains_aset]
            simp [h1 k t' hold]
        simp only [ThreadPoolManager.cancelTaskMgr, htid, hpl]
        by_cases hcond : ((pool.cancelInPool tid ok now).2 &&
            ((alookup (pool.cancelInPool tid ok now).1.tasks tid).getD task).isDone) = true
        · rw [if_pos hcond]
          intro k t' hmem
          exact hstep k t' (mem_of_mem_aerase hmem)
        · rw [if_neg hcond]
          intro k t' hmem
          exact hstep k t' hmem
  | closeOp pid w =>
    simp [RegistryOp.isCloseLike] at hop
  | forceCloseOp pid =>
    simp [RegistryOp.isCloseLike] at hop
  | cleanupOp =>
    simp only [applyRegistryOp, ThreadPoolManager.cleanupSweep,
      ThreadPoolManager.cleanupCompletedMgr, ThreadPoolManager.clearStoppedPools]
    intro k t hmem
    have hmem' : (k, t) ∈ m.tasks := (List.mem_filter.mp hmem).1
    have hc := h1 k t hmem'
    rw [acontains_iff_mem_keys] at hc
    obtain ⟨⟨pk, p⟩, hpmem, hpk⟩ := List.mem_map.mp hc
    simp at hpk
    subst hpk
    have hstat : p.status = PoolStatus.running := h3 _ _ hpmem
    rw [acontains_iff_mem_keys]
    refine List.mem_map.mpr ⟨(t.pool_id, (p.cleanupCompleted).1), ?_, rfl⟩
    refine List.mem_filter.mpr ⟨?_, ?_⟩
    · exact List.mem_map.mpr ⟨(t.pool_id, p), hpmem, rfl⟩
    · simp [ManagedThreadPool.cleanupCompleted, hstat]

/-- Witness for `registry_invariant_preserved`: submitting a task into a
concrete one-pool registry keeps the index resolving. -/
theorem registry_invariant_preserved_witness :
    TaskPoolInv (applyRegistryOp managerNoTasks (RegistryOp.submitOp 8 none 99 5)) :=
  registry_invariant_preserved managerNoTasks (RegistryOp.submitOp 8 none 99 5)
    (by intro k t h; simp [managerNoTasks] at h)
    (by
      intro k p h
      simp [managerNoTasks] at h
      rw [h.2, ← h.1]
      rfl)
    (by
      intro k p h
      simp [managerNoTasks] at h
      rw [h.2]
      rfl)
    (by intro k t p t2 hT hP hp2; simp [managerNoTasks, alookup] at hT)
    rfl

/-- C8: `force_close_pool` on a registered pool returns a list containing the
id of every task of that pool that was non-terminal at the moment of the call
(given that the registry's global index covers the pool's tasks, which every
submission establishes), and the pool is absent from `list_pools()`
afterwards. -/
theorem force_close_returns_active (m : ThreadPoolManager) (pid : Nat)
    (pool : ManagedThreadPool) (hp : alookup m.pools pid = some pool)
    (hnd : (m.pools.map Prod.fst).Nodup) (h2 : PoolIdInv m)
    (hsync : ∀ k t, (k, t) ∈ pool.tasks → t.isDone = false →
      alookup m.tasks k = some t ∧ t.pool_id = pid) :
    ∃ m' ids, m.forceClosePool pid = Except.ok (m', ids) ∧
      (∀ k t, (k, t) ∈ pool.tasks → t.isDone = false → k ∈ ids) ∧
      alookup m'.pools pid = none ∧
      ∀ info ∈ m'.listPools, info.pool_id ≠ pid := by
  refine ⟨⟨aerase m.pools pid,
      m.tasks.filter fun kv =>
        !(((m.tasks.filter fun kv2 =>
          kv2.2.pool_id == pid && !kv2.2.isDone).map Prod.fst).contains kv.1)⟩,
    (m.tasks.filter fun kv => kv.2.pool_id == pid && !kv.2.isDone).map Prod.fst,
    ?_, ?_, ?_, ?_⟩
  · simp [ThreadPoolManager.forceClosePool, hp]
  · intro k t hmem hdone
    obtain ⟨hlook, hkpid⟩ := hsync k t hmem hdone
    refine List.mem_map.mpr ⟨(k, t), ?_, rfl⟩
    refine List.mem_filter.mpr ⟨mem_of_alookup hlook, ?_⟩
    simp [hkpid, hdone]
  · exact alookup_aerase_self hnd
  · intro info hinfo
    obtain ⟨⟨pk, q⟩, hqmem, hq⟩ := List.mem_map.mp hinfo
    have hqpid : q.pool_id = pk := h2 pk q (mem_of_mem_aerase hqmem)
    intro hbad
    have hpk : pk = pid := by
      rw [← hq] at hbad
      simp [ManagedThreadPool.getInfo] at hbad
      rw [hqpid] at hbad
      exact hbad
    subst hpk
    have hnone := alookup_aerase_self (l := m.pools) (k := pk) hnd
    rw [alookup_eq_none_iff] at hnone
    exact hnone (List.mem_map.mpr ⟨(pk, q), hqmem, rfl⟩)

/-- Witness for `force_close_returns_active` on a concrete registry: the
pending task 60 is reported, and pool 6 is gone from `list_pools`. -/
theorem force_close_returns_active_witness :
    ∃ m' ids, managerW.forceClosePool 6 = Except.ok (m', ids) ∧
      (∀ k t, (k, t) ∈ (exPool 6 2 [(60, exTask 60 6 TaskStatus.pending),
        (61, exTask 61 6 TaskStatus.completed)]).tasks → t.isDone = false → k ∈ ids) ∧
      alookup m'.pools 6 = none ∧
      ∀ info ∈ m'.listPools, info.pool_id ≠ 6 := by
  refine force_close_returns_active managerW 6
    (exPool 6 2 [(60, exTask 60 6 TaskStatus.pending), (61, exTask 61 6 TaskStatus.completed)])
    (by decide) (by decide) ?_ ?_
  · intro k p h
    simp [managerW] at h
    rw [h.2, ← h.1]
    rfl
  · intro k t hmem hdone
    simp [exPool] at hmem
    rcases hmem with ⟨hk, ht⟩ | ⟨hk, ht⟩ <;> subst hk <;> subst ht
    · exact ⟨by decide, rfl⟩
    · exact absurd hdone (by decide)

end ThreadpoolMgr
